import Mathlib

/-!
# dialog-code: verification of the prompt-detection and decision core

A shallow embedding, in Lean 4, of the prompt-detection / decision state
machine of the `dialog-code` repository (a Go wrapper that intercepts a
terminal output of the child process, which it scans for output, detects permission prompts and answers
them).  Go strings are modelled as `List Char` (Go `range` over a string
yields runes, and the regexp package operates on runes); Go `map[string]T`
is modelled as an association list carrying the iteration sequence, so that
properties about the unspecified Go map iteration order can be stated as
properties over permutations of the list.  Timestamps are integers counting
milliseconds; `time.Since(x) < d` becomes `now - x < d` over `Int`.
Byte-sensitive operations (`len(s)` on a Go string) use an explicit UTF-8
byte count per rune.
-/

set_option maxHeartbeats 1000000

namespace DialogCode

/-! ## Association lists: the model of Go maps

`alookup` is Go map indexing, `aerase` is `delete`, `ainsert` is map
assignment (`m[k] = v`), implemented as erase-then-append so that keys stay
unique.  The list order is the (one fixed representative of the) iteration
order seen by `for k, v := range m`. -/

def alookup {α : Type} (l : List (String × α)) (k : String) : Option α :=
  match l with
  | [] => none
  | (k', v) :: rest => if k' = k then some v else alookup rest k

def aerase {α : Type} (l : List (String × α)) (k : String) : List (String × α) :=
  l.filter (fun p => p.1 ≠ k)

def ainsert {α : Type} (l : List (String × α)) (k : String) (v : α) :
    List (String × α) :=
  aerase l k ++ [(k, v)]

/-! ## Go character classes and string primitives -/

/-- Go regexp `\s`, i.e. the class `[\t\n\f\r ]` (ASCII only). -/
def goWs (c : Char) : Bool :=
  c = ' ' ∨ c = '\t' ∨ c = '\n' ∨ c = '\x0c' ∨ c = '\r'

/-- Go `unicode.IsSpace`: ASCII whitespace plus the Unicode space runes. -/
def isUniSpace (c : Char) : Bool :=
  c = ' ' ∨ c = '\t' ∨ c = '\n' ∨ c = '\x0b' ∨ c = '\x0c' ∨ c = '\r' ∨
  c = '\x85' ∨ c = '\xa0' ∨ c = ' ' ∨
  (0x2000 ≤ c.toNat ∧ c.toNat ≤ 0x200a) ∨
  c = ' ' ∨ c = ' ' ∨ c = ' ' ∨ c = ' ' ∨ c = '　'

def isDigitCh (c : Char) : Bool := '0' ≤ c ∧ c ≤ '9'

/-- UTF-8 byte count of one rune: the unit of Go `len(string)`. -/
def utf8Len (c : Char) : Nat :=
  if c.toNat < 0x80 then 1
  else if c.toNat < 0x800 then 2
  else if c.toNat < 0x10000 then 3
  else 4

/-- Go `len(s)` for a rune list: total UTF-8 byte length. -/
def goLen (s : List Char) : Nat := (s.map utf8Len).sum

/-- Does `pat` occur at the start of `s`?  (Go `strings.HasPrefix`.) -/
def isPrefix (pat s : List Char) : Bool :=
  match pat, s with
  | [], _ => true
  | _ :: _, [] => false
  | p :: ps, c :: cs => p = c ∧ isPrefix ps cs

/-- Does `pat` occur anywhere inside `s`?  (Go `strings.Contains`.) -/
def containsSub (s pat : List Char) : Bool :=
  match s with
  | [] => isPrefix pat []
  | _ :: rest => isPrefix pat s ∨ containsSub rest pat

/-- Go `strings.TrimSpace`. -/
def trimSpace (s : List Char) : List Char :=
  ((s.dropWhile isUniSpace).reverse.dropWhile isUniSpace).reverse

/-- Go `strings.Trim(s, cutset)`: drop cutset runes from both ends. -/
def goTrim (s : List Char) (cutset : List Char) : List Char :=
  (((s.dropWhile (cutset.contains ·)).reverse.dropWhile (cutset.contains ·)).reverse)

/-- Go `strings.TrimRight(s, cutset)`. -/
def goTrimRight (s : List Char) (cutset : List Char) : List Char :=
  (s.reverse.dropWhile (cutset.contains ·)).reverse

/-- Go `strings.SplitN(s, sep, 2)` restricted to what the repo uses: the
text after the first occurrence of `sep`, or `none` when `sep` is absent. -/
def splitTail (s sep : List Char) : Option (List Char) :=
  match s with
  | [] => none
  | _ :: rest => if isPrefix sep s then some (s.drop sep.length) else splitTail rest sep

/-! ## ANSI stripping

`RegexPatterns.AnsiEscape` is `\x1b\[[0-9;?]*[mKHJhlABCDEFGPST]` and is
used through `ReplaceAllString(s, "")`.  The parameter class and the final
class are disjoint, so replacement is a single left-to-right scan: on
`ESC [`, consume the run of `[0-9;?]`, and drop the whole sequence when the
next rune is a final byte of the class. -/

def isAnsiParam (c : Char) : Bool := isDigitCh c ∨ c = ';' ∨ c = '?'

def isAnsiFinal (c : Char) : Bool :=
  c = 'm' ∨ c = 'K' ∨ c = 'H' ∨ c = 'J' ∨ c = 'h' ∨ c = 'l' ∨ c = 'A' ∨
  c = 'B' ∨ c = 'C' ∨ c = 'D' ∨ c = 'E' ∨ c = 'F' ∨ c = 'G' ∨ c = 'P' ∨
  c = 'S' ∨ c = 'T'

def stripAnsiF : Nat → List Char → List Char
  | 0, _ => []
  | _, [] => []
  | fuel + 1, '\x1b' :: '[' :: body =>
    (match body.drop (body.takeWhile isAnsiParam).length with
      | d :: tail =>
        if isAnsiFinal d then stripAnsiF fuel tail
        else '\x1b' :: stripAnsiF fuel ('[' :: body)
      | [] => '\x1b' :: stripAnsiF fuel ('[' :: body))
  | fuel + 1, c :: rest => c :: stripAnsiF fuel rest

/-- Fuel `s.length` suffices: every `stripAnsiF` step hands its recursive
call a strictly shorter list, so the fuel never runs out before the
input does. -/
def stripAnsi (s : List Char) : List Char := stripAnsiF s.length s

/-! ## A small backtracking regex engine

Only the constructs used by `types.NewRegexPatterns`, with PCRE-style
preference order — which is the submatch semantics the Go `regexp` package
implements: alternation and option prefer the left / present branch, greedy
repetition prefers longer, lazy repetition prefers shorter, and the overall
match is the leftmost one.  Repetition only ever applies to single-rune
character classes in the source patterns, so the candidate split points of
a repetition form a finite list and the engine is structurally recursive. -/

inductive RE where
  | cls (p : Char → Bool)
  | lit (cs : List Char)
  | starG (p : Char → Bool)
  | plusG (p : Char → Bool)
  | starL (p : Char → Bool)
  | plusL (p : Char → Bool)
  | alt (a b : RE)
  | seq (a b : RE)
  | optG (a : RE)
  | grp (i : Nat) (a : RE)
  | eos

/-- Captured groups: group index paired with the captured runes.  The
binding recorded first (closest to the head) for an index wins. -/
abbrev Caps := List (Nat × List Char)

def firstSome {β : Type} (f : Nat → Option β) : List Nat → Option β
  | [] => none
  | n :: ns =>
    match f n with
    | some r => some r
    | none => firstSome f ns

/-- CPS matcher; the continuation receives the rest of the input and the
captures collected so far.  Candidate orders encode the preference rules. -/
def matchRE : RE → List Char → Caps → (List Char → Caps → Option Caps) → Option Caps
  | .cls p, cs, caps, k =>
    match cs with
    | [] => none
    | c :: rest => if p c then k rest caps else none
  | .lit pat, cs, caps, k =>
    if isPrefix pat cs then k (cs.drop pat.length) caps else none
  | .starG p, cs, caps, k =>
    firstSome (fun n => k (cs.drop n) caps)
      (List.range ((cs.takeWhile p).length + 1)).reverse
  | .plusG p, cs, caps, k =>
    firstSome (fun n => k (cs.drop n) caps)
      (((List.range (cs.takeWhile p).length).map (· + 1)).reverse)
  | .starL p, cs, caps, k =>
    firstSome (fun n => k (cs.drop n) caps)
      (List.range ((cs.takeWhile p).length + 1))
  | .plusL p, cs, caps, k =>
    firstSome (fun n => k (cs.drop n) caps)
      ((List.range (cs.takeWhile p).length).map (· + 1))
  | .alt a b, cs, caps, k =>
    match matchRE a cs caps k with
    | some r => some r
    | none => matchRE b cs caps k
  | .seq a b, cs, caps, k =>
    matchRE a cs caps (fun cs' caps' => matchRE b cs' caps' k)
  | .optG a, cs, caps, k =>
    match matchRE a cs caps k with
    | some r => some r
    | none => k cs caps
  | .grp i a, cs, caps, k =>
    matchRE a cs caps
      (fun cs' caps' => k cs' ((i, cs.take (cs.length - cs'.length)) :: caps'))
  | .eos, cs, caps, k =>
    if cs.isEmpty then k cs caps else none

def reMatchAt (re : RE) (cs : List Char) : Option Caps :=
  matchRE re cs [] (fun _ caps => some caps)

/-- Leftmost match: try each start position in order (Go `MatchString` /
`FindStringSubmatch` scan). -/
def reFind (re : RE) : List Char → Option Caps
  | [] => reMatchAt re []
  | c :: rest =>
    match reMatchAt re (c :: rest) with
    | some caps => some caps
    | none => reFind re rest

def capGet (caps : Caps) (i : Nat) : Option (List Char) :=
  match caps with
  | [] => none
  | (j, v) :: rest => if j = i then some v else capGet rest i

def chNotNl (c : Char) : Bool := c ≠ '\n'

/-- Model of `RegexPatterns.ChoiceAny`: `[│\s]*[❯\s]*([0-9]+)\.\s+(.+?)(?:\s*│)?$`. -/
def choiceAnyRE : RE :=
  .seq (.starG fun c => c = '│' ∨ goWs c)
  (.seq (.starG fun c => c = '❯' ∨ goWs c)
  (.seq (.grp 1 (.plusG isDigitCh))
  (.seq (.lit ['.'])
  (.seq (.plusG goWs)
  (.seq (.grp 2 (.plusL chNotNl))
  (.seq (.optG (.seq (.starG goWs) (.lit ['│'])))
  .eos))))))

/-- Model of `RegexPatterns.ChoiceYes`: `.*?([0-9]+)\.\s+(.*(Allow|Yes|Approve).*)`.
Only its `MatchString` use matters, so inner group 3 is not recorded. -/
def choiceYesRE : RE :=
  .seq (.starL chNotNl)
  (.seq (.grp 1 (.plusG isDigitCh))
  (.seq (.lit ['.'])
  (.seq (.plusG goWs)
  (.grp 2 (.seq (.starG chNotNl)
    (.seq (.alt (.lit "Allow".data) (.alt (.lit "Yes".data) (.lit "Approve".data)))
    (.starG chNotNl)))))))

/-- Model of `patterns.ChoiceYes.MatchString`. -/
def choiceYesMatch (s : String) : Bool := (reFind choiceYesRE s.data).isSome

/-- Model of `patterns.ChoiceAny.FindStringSubmatch` restricted to the two capture
groups the source reads (`matches[1]`, `matches[2]`). -/
def choiceAnySubmatch (cs : List Char) : Option (List Char × List Char) :=
  match reFind choiceAnyRE cs with
  | some caps =>
    match capGet caps 1, capGet caps 2 with
    | some n, some t => some (n, t)
    | _, _ => none
  | none => none

/-! ## `internal/types`: regex pattern wrappers -/

def stripAnsiS (s : String) : String := ⟨stripAnsi s.data⟩

def containsSubS (s pat : String) : Bool := containsSub s.data pat.data

/-- Model of `patterns.Permit.MatchString`: the pattern is the literal `Do you want to`,
so matching is substring containment. -/
def permitMatch (s : String) : Bool := containsSubS s "Do you want to"

/-! ## `internal/types`: `PromptState` and its operations

`AppState` owns one `PromptState`; the fields the claims touch are modelled
(`LastLine`, `Started`, `CollectedChoices`, `Processed`, `JustShown`,
`Cooldown`, `Context`, `TriggerReason`, `TriggerLine`).  The zero value of `Cooldown` stands for the Go zero `time.Time`; concrete runs use large positive
`now` values so the zero value lies far in the past, as in Go. -/

structure PromptStateM where
  lastLine : String
  started : Bool
  collectedChoices : List (String × String)
  processed : List (String × Int)
  justShown : Bool
  cooldown : Int
  context : List String
  contextLinesMax : Nat
  triggerReason : String
  triggerLine : String
deriving Repr, DecidableEq

/-- Model of `types.PromptDuplicationSeconds = 5`, in milliseconds. -/
def promptDuplicationMs : Int := 5000

/-- Model of `types.PromptProcessingCooldownMs = 500`. -/
def promptProcessingCooldownMs : Int := 500

/-- Model of the prompt part of `types.NewAppState` (`DefaultContextLines = 10`). -/
def newPromptState : PromptStateM :=
  { lastLine := "", started := false, collectedChoices := [], processed := [],
    justShown := false, cooldown := 0, context := [], contextLinesMax := 10,
    triggerReason := "", triggerLine := "" }

/-- Model of `AppState.ShouldProcessPrompt` (types package): duplicate suppression
within `PromptDuplicationSeconds`, then the just-shown cooldown check, then
recording.  Returns the decision and the mutated state. -/
def shouldProcessPromptT (st : PromptStateM) (prompt : String) (now : Int) :
    Bool × PromptStateM :=
  let clean := stripAnsiS prompt
  match alookup st.processed clean with
  | some last =>
    if now - last < promptDuplicationMs then (false, st)
    else
      let st₁ := { st with processed := aerase st.processed clean }
      if st₁.justShown ∧ now - st₁.cooldown < promptProcessingCooldownMs then
        (false, st₁)
      else
        (true, { st₁ with processed := ainsert st₁.processed clean now })
  | none =>
    if st.justShown ∧ now - st.cooldown < promptProcessingCooldownMs then
      (false, st)
    else
      (true, { st with processed := ainsert st.processed clean now })

/-- Cutset `"│ \t"` used by `AddChoice` / `cleanDialogText`. -/
def pipeCutset : List Char := "│ \t".data

/-- The `TrimRight` cutset of `AddChoice` (part_015): pipes, ASCII and
Unicode spacing, and decoration glyphs. -/
def choiceTrimRightCutset : List Char :=
  ("│ \t\r\n" ++
   "\u00A0\u2000\u2001\u2002\u2003\u2004\u2005\u2006\u2007\u2008\u2009\u200A\u200B\u202F\u205F\u3000" ++
   "◯○◉●>?─━┌┐└┘├┤┬┴┼╭╮╯╰╠╣╦╩╬⧉").data

/-- Model of `AppState.AddChoice`: match `ChoiceAny` on the ANSI-stripped line,
clean the captured text, and store `num ++ ". " ++ text` under key `num`
(last write wins per index). -/
def addChoice (st : PromptStateM) (choiceLine : String) : PromptStateM :=
  if st.started then
    match choiceAnySubmatch (stripAnsi choiceLine.data) with
    | some (num, text) =>
      let t := trimSpace (goTrimRight (goTrim text pipeCutset) choiceTrimRightCutset)
      let cleaned : String := String.mk num ++ ". " ++ String.mk t
      { st with collectedChoices := ainsert st.collectedChoices (String.mk num) cleaned }
    | none => st
  else st

/-- Model of `AppState.identifyTriggerReason`. -/
def identifyTriggerReason (prompt : String) (context : List String) : String :=
  let fullContext := context.foldl (fun acc line => acc ++ " " ++ line) prompt
  if containsSubS fullContext "Write(" then "Write() function call"
  else if containsSubS fullContext "Bash(" ∨
      (containsSubS fullContext "⏺" ∧ containsSubS fullContext "Bash") then
    if context.any (fun line => containsSubS line "⏺" ∧ containsSubS line "Bash(") then
      "Bash command execution"
    else "Bash() function call"
  else if containsSubS fullContext "⏺" ∧ containsSubS fullContext "Write" then
    "Write operation permission"
  else if containsSubS fullContext "requires permission" then
    "General permission requirement"
  else if containsSubS fullContext "needs your approval" then "Approval request"
  else if containsSubS fullContext "Permissions:" then "Permission list dialog"
  else if containsSubS prompt "Do you want to proceed" then "Proceed confirmation"
  else "Unknown trigger"

/-- Modelled from the spec: `AppState.StartPromptCollectionWithContext` is
called by every driver revision but its definition is not among the source
files (`types` only contains `StartPromptCollection`).  Per §4.2 the
composite identifier of the opening prompt is what subsequent lines are
compared against, so it is stored in `LastLine`; the rest follows
`StartPromptCollection`: `Started := true`, fresh choice map, and trigger
metadata from `identifyTriggerReason`. -/
def startPromptCollectionWithContext (st : PromptStateM)
    (prompt contextIdentifier : String) : PromptStateM :=
  { st with lastLine := contextIdentifier, started := true,
            collectedChoices := [], triggerLine := prompt,
            triggerReason := identifyTriggerReason prompt st.context }

/-! ## `internal/deduplication`: `DeduplicationManager`

Config durations are kept in their source units (`PromptDuplicationSeconds`
in seconds, the cooldowns in milliseconds); timestamps are milliseconds. -/

structure ProcessedEntryM where
  processedAt : Int
  count : Nat
deriving Repr, DecidableEq

structure CooldownStateM where
  lastProcessed : Int
  justShown : Bool
  cooldownUntil : Int
deriving Repr, DecidableEq

structure DedupConfig where
  promptDuplicationSeconds : Int
  dialogCooldownMs : Int
  processingCooldownMs : Int
  maxEntries : Nat
deriving Repr, DecidableEq

/-- Model of `deduplication.DefaultConfig` (the cleanup interval drives a background
ticker, not the decision logic, and is omitted). -/
def defaultDedupConfig : DedupConfig :=
  { promptDuplicationSeconds := 5, dialogCooldownMs := 500,
    processingCooldownMs := 500, maxEntries := 1000 }

structure DedupManager where
  processedPrompts : List (String × ProcessedEntryM)
  cooldownStates : List (String × CooldownStateM)
  config : DedupConfig
deriving Repr, DecidableEq

def newDedupManager (config : DedupConfig) : DedupManager :=
  { processedPrompts := [], cooldownStates := [], config := config }

/-- Model of `DeduplicationManager.ShouldProcessPrompt`: suppress while the entry is
younger than the duplication window; expired entries are deleted.  This
check does not record (recording is `MarkPromptProcessed`). -/
def dmShouldProcessPrompt (dm : DedupManager) (prompt : String) (now : Int) :
    Bool × DedupManager :=
  let clean := stripAnsiS prompt
  match alookup dm.processedPrompts clean with
  | some entry =>
    if now - entry.processedAt < dm.config.promptDuplicationSeconds * 1000 then
      (false, dm)
    else
      (true, { dm with processedPrompts := aerase dm.processedPrompts clean })
  | none => (true, dm)

/-- Model of `DeduplicationManager.ShouldProcessWithCooldown`: the dedup check, then
the named cooldown channel. -/
def dmShouldProcessWithCooldown (dm : DedupManager) (prompt cooldownKey : String)
    (now : Int) : Bool × DedupManager :=
  let r := dmShouldProcessPrompt dm prompt now
  if r.1 then
    match alookup r.2.cooldownStates cooldownKey with
    | some st =>
      if st.justShown ∧ now < st.cooldownUntil then (false, r.2) else (true, r.2)
    | none => (true, r.2)
  else (false, r.2)

/-- Model of `cleanupExpiredEntries`. -/
def dmCleanupExpired (dm : DedupManager) (now : Int) : DedupManager :=
  { dm with
    processedPrompts := dm.processedPrompts.filter
      (fun p => ¬ now - p.2.processedAt > dm.config.promptDuplicationSeconds * 1000),
    cooldownStates := dm.cooldownStates.filter
      (fun p => ¬ (now > p.2.cooldownUntil ∧
                   now - p.2.lastProcessed > dm.config.processingCooldownMs)) }

/-- Model of `DeduplicationManager.MarkPromptProcessed`. -/
def dmMarkPromptProcessed (dm : DedupManager) (prompt : String) (now : Int) :
    DedupManager :=
  let clean := stripAnsiS prompt
  let entry :=
    match alookup dm.processedPrompts clean with
    | some e => { e with count := e.count + 1, processedAt := now }
    | none => ProcessedEntryM.mk now 1
  let dm₁ := { dm with processedPrompts := ainsert dm.processedPrompts clean entry }
  if dm₁.processedPrompts.length > dm₁.config.maxEntries then dmCleanupExpired dm₁ now
  else dm₁

/-- Model of `DeduplicationManager.SetCooldown`. -/
def dmSetCooldown (dm : DedupManager) (key : String) (durationMs now : Int) :
    DedupManager :=
  { dm with cooldownStates :=
      (ainsert dm.cooldownStates key (CooldownStateM.mk now true (now + durationMs))) }

/-- Model of `DeduplicationManager.SetDialogCooldown`. -/
def dmSetDialogCooldown (dm : DedupManager) (key : String) (now : Int) :
    DedupManager :=
  dmSetCooldown dm key dm.config.dialogCooldownMs now

/-- Model of `DeduplicationManager.ClearCooldown`. -/
def dmClearCooldown (dm : DedupManager) (key : String) : DedupManager :=
  { dm with cooldownStates := aerase dm.cooldownStates key }

/-! ## `internal/choice`: selection and helpers -/

/-- Model of `choice.GetBestChoice`.  The two `for num, text := range choices` loops
walk the map in its (unspecified) iteration sequence, which is the list
order here; the fallback loop scans indices `1..10` ascending. -/
def getBestChoice (choices : List (String × String)) : String :=
  match choices.find? (fun p => choiceYesMatch p.2) with
  | some p => p.1
  | none =>
    match choices.find? (fun p => containsSubS p.2 "Add a new rule") with
    | some p => p.1
    | none =>
      match (List.range' 1 10).find? (fun n => (alookup choices (toString n)).isSome) with
      | some n => toString n
      | none => "1"

/-- Model of `findMaxRejectChoice` (cmd/dcode/app.go): the `for num := 3; num >= 2;
num--` loop with default `"2"`. -/
def findMaxRejectChoice (choices : List (String × String)) : String :=
  if (alookup choices "3").isSome then "3"
  else if (alookup choices "2").isSome then "2"
  else "2"

/-- The `strings.SplitN(choice, ". ", 2)` step of `extractButtons`:
the text after the first `". "`, or the whole string when absent. -/
def stripChoicePrefix (c : String) : String :=
  match splitTail c.data ". ".data with
  | some tail => String.mk tail
  | none => c

/-- The loop body of `extractButtons`: append the label of each present key. -/
def extractButtonsGo (choices : List (String × String)) : List Nat → List String
  | [] => []
  | i :: rest =>
    match alookup choices (toString i) with
    | some c => stripChoicePrefix c :: extractButtonsGo choices rest
    | none => extractButtonsGo choices rest

/-- Model of `PermissionHandler.extractButtons` (cmd/dcode/app.go): indices `1` up to
the number of collected choices, ascending, keeping only present keys. -/
def extractButtons (choices : List (String × String)) : List String :=
  extractButtonsGo choices (List.range' 1 choices.length)

/-! ## `internal/dialog/simple_dialog.go` (current revision)

The `osascript` invocation is the external effect: it is abstracted as an
`osOutput : Option String` parameter — `none` models `cmd.Output()`
returning an error, `some out` its standard output. -/

def utf8Take : Nat → List Char → List Char
  | _, [] => []
  | n, c :: rest => if utf8Len c ≤ n then c :: utf8Take (n - utf8Len c) rest else []

def brPat : List Char := "button returned:".data

/-- The `button returned:([^,]+)` submatch: text after the first occurrence
of the literal that is followed by at least one non-comma rune (an
occurrence followed directly by `,` cannot complete the `[^,]+` group, so
the scan continues, as the regexp engine would). -/
def buttonReturnedName (s : List Char) : Option (List Char) :=
  match s with
  | [] => none
  | _ :: rest =>
    if isPrefix brPat s then
      let name := (s.drop brPat.length).takeWhile (fun c => c ≠ ',')
      if name.isEmpty then buttonReturnedName rest else some name
    else buttonReturnedName rest

/-- The button-matching loop of `parseAppleScriptResult`, 1-based.  The
truncation compare (`buttonName[:47]`) slices bytes in Go; here it takes
the whole runes that fit in 47 bytes, which agrees with Go whenever the
47-byte cut does not split a rune. -/
def findMatchingButtonIdx (buttons : List String) (name : List Char) (i : Nat) :
    Option Nat :=
  match buttons with
  | [] => none
  | b :: rest =>
    if b.data = name ∨
        (goLen b.data > 50 ∧ goLen name ≥ 47 ∧ isPrefix (utf8Take 47 name) b.data) then
      some i
    else findMatchingButtonIdx rest name (i + 1)

/-- Model of `SimpleOSDialog.parseAppleScriptResult`. -/
def parseAppleScriptResultM (out : String) (buttons : List String) : String :=
  if containsSubS out "gave up:true" then ""
  else
    match buttonReturnedName out.data with
    | some raw =>
      match findMatchingButtonIdx buttons (trimSpace raw) 1 with
      | some i => toString i
      | none => toString buttons.length
    | none => toString buttons.length

/-- Model of `SimpleOSDialog.executeAppleScriptDialog`: on OS failure, the 1-based
index of the last button. -/
def executeAppleScriptDialogM (osOutput : Option String) (buttons : List String) :
    String :=
  match osOutput with
  | none => toString buttons.length
  | some out => parseAppleScriptResultM out buttons

def findExactButtonIdx (buttons : List String) (name : List Char) (i : Nat) :
    Option Nat :=
  match buttons with
  | [] => none
  | b :: rest => if b.data = name then some i else findExactButtonIdx rest name (i + 1)

/-- Model of `SimpleOSDialog.parseChooseFromListResult`. -/
def parseChooseFromListResultM (out : String) (buttons : List String) : String :=
  let o := trimSpace out.data
  if o = "false".data then toString buttons.length
  else
    let n := if isPrefix ['\x7b'] o ∧ o.getLast? = some '\x7d' then
               trimSpace (o.drop 1).dropLast
             else o
    let n := if n.any (· = ',') then n.takeWhile (· ≠ ',') else n
    let n := goTrim (trimSpace n) ['"']
    match findExactButtonIdx buttons n 1 with
    | some i => toString i
    | none => toString buttons.length

/-- Model of `SimpleOSDialog.executeChooseFromListDialog` (used for > 3 buttons). -/
def executeChooseFromListDialogM (osOutput : Option String) (buttons : List String) :
    String :=
  match osOutput with
  | none => toString buttons.length
  | some out => parseChooseFromListResultM out buttons

/-- Model of `SimpleOSDialog.Show`: empty button lists become `["OK"]`, then the
dialog flavour is picked by button count.  The message and default button
only shape the AppleScript text, not the returned index. -/
def simpleShow (osOutput : Option String) (_message : String)
    (buttons : List String) (_defaultButton : String) : String :=
  let bs := if buttons.isEmpty then ["OK"] else buttons
  if bs.length > 3 then executeChooseFromListDialogM osOutput bs
  else executeAppleScriptDialogM osOutput bs

/-! ## `internal/dialog/dialog.go`: the built-in interactive dialog path -/

def escQuotes (s : List Char) : List Char :=
  s.foldr (fun c acc => if c = '"' then '\\' :: '"' :: acc else c :: acc) []

/-- Model of `dialog.cleanChoiceText`. -/
def cleanChoiceTextD (choice : String) : String :=
  let t := trimSpace choice.data
  let t := goTrim t pipeCutset
  let t := goTrimRight t choiceTrimRightCutset
  let t := trimSpace t
  let t := escQuotes t
  match splitTail t ". ".data with
  | some tail => String.mk tail
  | none => String.mk t

/-- The AppleScript execution + parse of `dialog.askWithOptions`
(`executeAppleScriptDialog` in dialog.go): `"3"` on error, the mapped
choice number on a `button returned:` hit, else `"3"`.  `buttonPairs`
carries `(cleaned button text, choice number)`; Go walks `buttonToChoice`
in unspecified map order, here the build order. -/
def askExecuteDialog (osOutput : Option String)
    (buttonPairs : List (String × String)) : String :=
  match osOutput with
  | none => "3"
  | some out =>
    match buttonPairs.find? (fun p => containsSubS out ("button returned:" ++ p.1)) with
    | some p => p.2
    | none => "3"

/-- Model of `dialog.askWithOptions` reduced to its decision: the `dialogShowing`
guard, the buttons built from choice keys `"1".."3"`, the **empty-buttons
sentinel `""`** (do-not-respond-yet), then the AppleScript dialog. -/
def askWithOptionsM (choices : List (String × String)) (dialogShowing : Bool)
    (osOutput : Option String) : String :=
  if dialogShowing then "3"
  else
    let pairs := (List.range' 1 3).foldl
      (fun acc i =>
        match alookup choices (toString i) with
        | some c => acc ++ [(cleanChoiceTextD c, toString i)]
        | none => acc) []
    if pairs.isEmpty then ""
    else askExecuteDialog osOutput pairs

/-! ## `cmd/dcode/app.go`: the dispatcher (mode handling)

`handleUserChoice` branches on the mutually exclusive mode flags.  The
writes a dispatch performs on the input stream of the child are collected as an
ordered list of `WriteString` payloads (the sleeps between them order, but
do not change, the payloads).  The return value of the external dialog callback
is the `dialogResult` parameter; for auto-reject-with-wait the outcome of
the race is `raceOutcome` (`some u`: the dialog answered first with `u`;
`none`: the timer won) — the race itself is verified on the transition
system further below. -/

inductive Mode where
  | autoApprove
  | autoReject
  | autoRejectWait
  | interactive
deriving Repr, DecidableEq

/-- Modelled from the spec: the rejection text constant
`AutoRejectBaseMessage` referenced by app.go is not among the source files;
the previous revision (part_004, `AutoRejectMessage`) carries the fixed
message, quoted here. -/
def autoRejectBaseMessage : String :=
  "The command was automatically rejected. If using Task tools, please restart them. Otherwise, try a different command."

/-- Model of `isValidCommandLine` (app.go). -/
def isValidCommandLine (line : String) : Bool :=
  let clean := trimSpace (goTrim line.data pipeCutset)
  if clean.isEmpty then false
  else if containsSub clean "Do you want to proceed".data ∨
      containsSub clean "❯".data ∨ containsSub clean "command".data then false
  else if isPrefix ">".data clean ∨ isPrefix ".".data clean then false
  else true

/-- Model of `PermissionHandler.buildAutoRejectMessage` (app.go). -/
def buildAutoRejectMessage (context : List String) : String :=
  let cmds := context.filterMap (fun line =>
    if containsSubS line "│" ∧ isValidCommandLine line then
      some (String.mk (trimSpace (goTrim line.data pipeCutset)))
    else none)
  if cmds.isEmpty then autoRejectBaseMessage
  else "Rejected command:\n" ++ String.intercalate "\n" cmds ++ "\n\n" ++
       autoRejectBaseMessage

/-- Model of `PermissionHandler.handleUserChoice` (app.go): the write sequence of
the selected mode.  `sendAutoReject` recomputes the max reject choice with
the same loop as `findMaxRejectChoice`; `writeAutoRejectChoice` writes the
choice, the rejection message, then a carriage return. -/
def handleUserChoiceApp (choices : List (String × String)) (context : List String)
    (bestChoice : String) (mode : Mode) (dialogResult : String)
    (raceOutcome : Option String) : List String :=
  match mode with
  | .autoApprove => [bestChoice]
  | .autoReject => [findMaxRejectChoice choices, buildAutoRejectMessage context, "\r"]
  | .autoRejectWait =>
    match raceOutcome with
    | some userChoice => [userChoice]
    | none => [findMaxRejectChoice choices, buildAutoRejectMessage context, "\r"]
  | .interactive => if dialogResult ≠ "" then [dialogResult] else []

/-- Model of `PermissionHandler.processChoice` (app.go): collect the line, and on a
`╰` box-closing delimiter freeze the prompt and dispatch. -/
def processChoiceApp (st : PromptStateM) (line : String) (mode : Mode)
    (dialogResult : String) (raceOutcome : Option String) :
    PromptStateM × List String :=
  let st₁ := addChoice st line
  if containsSubS (stripAnsiS line) "╰" then
    -- only `Started` flips before the dispatch reads the frozen fields
    ({ st₁ with started := false },
     handleUserChoiceApp st₁.collectedChoices st₁.context
       (getBestChoice st₁.collectedChoices) mode dialogResult raceOutcome)
  else (st₁, [])

/-! ## `cmd/dcode/main.go`: the glyph-excluding line classifier

This is the driver revision whose prompt-start condition excludes lines
carrying the command-executed marker `⏺`
(`p.patterns.Permit.MatchString(line) && !strings.Contains(line, "⏺")`).
Its dispatch (`handleUserChoice`) is auto-approve or the built-in
interactive dialog; the return value of the dialog is the `dialogResult`
parameter.  Effects are events: opening a prompt collection, or a
`WriteString` to the input stream of the child. -/

inductive HEvent where
  | startCollection
  | write (s : String)
deriving Repr, DecidableEq

structure MainHandlerState where
  prompt : PromptStateM
  contextLines : List String
deriving Repr, DecidableEq

/-- Model of `PermissionHandler.shouldSkipLine` (identical in both driver
revisions).  `len(...)` counts UTF-8 bytes. -/
def shouldSkipLine (clean : String) : Bool :=
  isPrefix "+".data (trimSpace clean.data) ∨
  isPrefix "-".data (trimSpace clean.data) ∨
  containsSubS clean "⎿" ∨ containsSubS clean "☒" ∨
  containsSubS clean "Context:" ∨ goLen (trimSpace clean.data) ≤ 10

/-- The composite identifier built by the main.go `processLine`: the last three
context lines, each followed by `|`, then the stripped line.  (The Go loop
starts at `len-3` and requires `i >= 0`, so with fewer than three context
lines no prefix is added.) -/
def contextIdentifierOf (ctxLines : List String) (cleanLine : String) : String :=
  (if ctxLines.length ≥ 3 then
    ((ctxLines.drop (ctxLines.length - 3)).map (· ++ "|")).foldl (· ++ ·) ""
   else "") ++ cleanLine

/-- Model of `PermissionHandler.processChoice` (main.go): looser end-of-collection
condition (blank line, `╰`, or `Your choice:`), then dispatch. -/
def processChoiceMain (st : PromptStateM) (line clean : String)
    (autoApprove : Bool) (dialogResult : String) : PromptStateM × List HEvent :=
  let st₁ := addChoice st line
  if (trimSpace clean.data).isEmpty ∨ containsSubS clean "╰" ∨
      containsSubS clean "Your choice:" then
    let st₂ := { st₁ with started := false }
    let best := getBestChoice st₂.collectedChoices
    (st₂,
     if autoApprove then [.write best]
     else if dialogResult ≠ "" then [.write dialogResult]
     else [])
  else (st₁, [])

/-- Model of `PermissionHandler.processLine` (main.go): context collection, skip
filter, the glyph-excluding prompt-start check with the composite
identifier and the dedup check, then choice collection. -/
def processLineMain (h : MainHandlerState) (line : String) (now : Int)
    (autoApprove : Bool) (dialogResult : String) :
    MainHandlerState × List HEvent :=
  let clean := stripAnsiS line
  let ctx' :=
    if ¬h.prompt.started ∧ ¬(trimSpace clean.data).isEmpty ∧
        ¬isPrefix "[DEBUG]".data clean.data then
      let c := h.contextLines ++ [clean]
      if c.length > 10 then c.drop 1 else c
    else h.contextLines
  let h₁ := { h with contextLines := ctx' }
  if shouldSkipLine clean then (h₁, [])
  else if permitMatch line && !containsSubS line "⏺" then
    let cid := contextIdentifierOf ctx' clean
    if cid ≠ h₁.prompt.lastLine then
      let r := shouldProcessPromptT h₁.prompt line now
      if r.1 then
        ({ h₁ with prompt := startPromptCollectionWithContext r.2 line cid },
         [.startCollection])
      else ({ h₁ with prompt := r.2 }, [])
    else (h₁, [])
  else if h₁.prompt.started then
    let r := processChoiceMain h₁.prompt line clean autoApprove dialogResult
    ({ h₁ with prompt := r.1 }, r.2)
  else (h₁, [])

/-! ## `sendAutoRejectWithWait` (app.go): the cancellable race

The two goroutines of `sendAutoRejectWithWait` and the two channels
(`userChoiceChan`, buffered size 1, and `done`, closed by the winner) are a
transition system.  `u` is the value the dialog callback returns;
`maxChoice` and `rejectMsg` are the payloads of the timeout branch
(`writeAutoRejectChoice`).  Scheduling is nondeterministic: `RaceStep`
enables exactly the operations the Go semantics enables — in particular, when
the timer has fired *and* a value sits in the channel buffer, the outer
`select` may take either branch, as a Go `select` with two ready cases may.
The `tookTimeout` / `tookUser` fields are ghost flags recording which
branch the outer `select` committed to; `doneCloseCount` counts `close(done)`
calls (a second close would panic). -/

structure RaceState where
  innerAtSelect : Bool
  innerDone : Bool
  outerDone : Bool
  chanBuf : Option String
  doneCloseCount : Nat
  timerFired : Bool
  tookTimeout : Bool
  tookUser : Bool
  writes : List String
deriving Repr, DecidableEq

def raceInit : RaceState :=
  { innerAtSelect := false, innerDone := false, outerDone := false,
    chanBuf := none, doneCloseCount := 0, timerFired := false,
    tookTimeout := false, tookUser := false, writes := [] }

inductive RaceStep (u maxChoice rejectMsg : String) : RaceState → RaceState → Prop where
  /-- The `time.After(waitDuration)` timer elapses. -/
  | timerFire (s : RaceState) : ¬s.timerFired →
      RaceStep u maxChoice rejectMsg s { s with timerFired := true }
  /-- The dialog callback returns `u`; the inner goroutine reaches its
  `select`. -/
  | callbackReturn (s : RaceState) : ¬s.innerAtSelect → ¬s.innerDone →
      RaceStep u maxChoice rejectMsg s { s with innerAtSelect := true }
  /-- Inner `select`, case `userChoiceChan <- userChoice`: the buffered
  send succeeds while the buffer is free. -/
  | innerSend (s : RaceState) : s.innerAtSelect → s.chanBuf = none →
      RaceStep u maxChoice rejectMsg s
        { s with innerAtSelect := false, innerDone := true, chanBuf := some u }
  /-- Inner `select`, case `<-done`: receiving from the closed channel, the
  late response is dropped. -/
  | innerDrop (s : RaceState) : s.innerAtSelect → 1 ≤ s.doneCloseCount →
      RaceStep u maxChoice rejectMsg s
        { s with innerAtSelect := false, innerDone := true }
  /-- Outer `select`, case `userChoice := <-userChoiceChan`: `close(done)`,
  write the choice of the user, arm the cooldown. -/
  | outerUser (s : RaceState) (v : String) : ¬s.outerDone → s.chanBuf = some v →
      RaceStep u maxChoice rejectMsg s
        { s with outerDone := true, tookUser := true, chanBuf := none,
                 doneCloseCount := s.doneCloseCount + 1, writes := s.writes ++ [v] }
  /-- Outer `select`, case `<-time.After(waitDuration)`: `close(done)`,
  then `writeAutoRejectChoice` writes the most-restrictive choice, the
  rejection message, and a carriage return. -/
  | outerTimeout (s : RaceState) : ¬s.outerDone → s.timerFired →
      RaceStep u maxChoice rejectMsg s
        { s with outerDone := true, tookTimeout := true,
                 doneCloseCount := s.doneCloseCount + 1,
                 writes := s.writes ++ [maxChoice, rejectMsg, "\r"] }

inductive RaceReach (u maxChoice rejectMsg : String) : RaceState → Prop where
  | init : RaceReach u maxChoice rejectMsg raceInit
  | step {s s' : RaceState} : RaceReach u maxChoice rejectMsg s →
      RaceStep u maxChoice rejectMsg s s' → RaceReach u maxChoice rejectMsg s'

/-- The inductive invariant of the race. -/
def raceInv (u maxChoice rejectMsg : String) (s : RaceState) : Prop :=
  s.doneCloseCount = (if s.outerDone then 1 else 0) ∧
  ¬(s.tookUser ∧ s.tookTimeout) ∧
  (s.outerDone ↔ (s.tookUser ∨ s.tookTimeout)) ∧
  s.writes = (if s.tookUser then [u]
              else if s.tookTimeout then [maxChoice, rejectMsg, "\r"]
              else []) ∧
  (∀ v, s.chanBuf = some v → v = u) ∧
  ¬(s.innerAtSelect ∧ s.innerDone) ∧
  (s.chanBuf.isSome → s.innerDone)

/-- The prompt state after collecting the P3 choice lines of the spec. -/
def p3State : PromptStateM :=
  addChoice (addChoice (addChoice { newPromptState with started := true }
    "❯ 1. Yes") "  2. Yes, and don\x27t ask again for X") "  3. No, and tell Claude..."

/-- A concrete choice map for the race witness (P6-style scenario). -/
def raceDemoChoices : List (String × String) :=
  [("1", "1. approve"), ("2", "2. reject"), ("3", "3. reject permanently")]

/-- The state after: timer fires, outer select takes the timeout branch,
the dialog callback returns late with `"1"`, and the inner select drops the
response into the closed `done` channel. -/
def raceDemoFinal : RaceState :=
  { innerAtSelect := false, innerDone := true, outerDone := true,
    chanBuf := none, doneCloseCount := 1, timerFired := true,
    tookTimeout := true, tookUser := false,
    writes := [findMaxRejectChoice raceDemoChoices, buildAutoRejectMessage [], "\r"] }

theorem alookup_append {α : Type} (l₁ l₂ : List (String × α)) (k : String) :
    alookup (l₁ ++ l₂) k = ((alookup l₁ k).rec (alookup l₂ k) (fun v => some v)) := by
  induction l₁ with
  | nil => simp [alookup]
  | cons p rest ih =>
    obtain ⟨k', v⟩ := p
    simp only [List.cons_append, alookup]
    split <;> simp [ih]

theorem alookup_aerase_self {α : Type} (l : List (String × α)) (k : String) :
    alookup (aerase l k) k = none := by
  induction l with
  | nil => simp [aerase, alookup]
  | cons p rest ih =>
    obtain ⟨k', v⟩ := p
    by_cases h : k' = k
    · simpa [aerase, h] using ih
    · simpa [aerase, alookup, h] using ih

theorem alookup_ainsert_self {α : Type} (l : List (String × α)) (k : String) (v : α) :
    alookup (ainsert l k v) k = some v := by
  unfold ainsert
  rw [alookup_append, alookup_aerase_self]
  simp [alookup]


theorem raceInv_init (u maxChoice rejectMsg : String) :
    raceInv u maxChoice rejectMsg raceInit := by
  simp [raceInv, raceInit]

theorem raceInv_step {u maxChoice rejectMsg : String} {s s' : RaceState}
    (hinv : raceInv u maxChoice rejectMsg s)
    (hstep : RaceStep u maxChoice rejectMsg s s') :
    raceInv u maxChoice rejectMsg s' := by
  obtain ⟨h1, h2, h3, h4, h5, h6, h7⟩ := hinv
  cases hstep with
  | timerFire h =>
    exact ⟨h1, h2, h3, h4, h5, h6, h7⟩
  | callbackReturn ha hd =>
    refine ⟨h1, h2, h3, h4, h5, ?_, h7⟩
    simp only [not_and]
    intro _ hc
    exact hd hc
  | innerSend ha hb =>
    refine ⟨h1, h2, h3, h4, ?_, ?_, ?_⟩
    · intro v hv
      simp only [Option.some.injEq] at hv
      exact hv.symm
    · simp
    · simp
  | innerDrop ha hc =>
    refine ⟨h1, h2, h3, h4, h5, ?_, ?_⟩
    · simp
    · simp
  | outerUser v ho hb =>
    have hvu : v = u := h5 v hb
    have hnu : s.tookUser = false := by
      cases hu : s.tookUser with
      | false => rfl
      | true => exact absurd (h3.mpr (Or.inl hu)) ho
    have hnt : s.tookTimeout = false := by
      cases ht : s.tookTimeout with
      | false => rfl
      | true => exact absurd (h3.mpr (Or.inr ht)) ho
    have hod : s.outerDone = false := by
      cases hx : s.outerDone with
      | false => rfl
      | true => exact absurd hx ho
    have hcc : s.doneCloseCount = 0 := by rw [h1, hod]; rfl
    refine ⟨?_, ?_, ?_, ?_, ?_, ?_, ?_⟩
    · simp [hcc]
    · simp [hnt]
    · simp
    · simp only
      rw [h4, hnu, hnt, hvu]
      simp
    · intro w hw
      simp at hw
    · simpa using h6
    · simp
  | outerTimeout ho ht =>
    have hnu : s.tookUser = false := by
      cases hu : s.tookUser with
      | false => rfl
      | true => exact absurd (h3.mpr (Or.inl hu)) ho
    have hnt : s.tookTimeout = false := by
      cases ht' : s.tookTimeout with
      | false => rfl
      | true => exact absurd (h3.mpr (Or.inr ht')) ho
    have hod : s.outerDone = false := by
      cases hx : s.outerDone with
      | false => rfl
      | true => exact absurd hx ho
    have hcc : s.doneCloseCount = 0 := by rw [h1, hod]; rfl
    refine ⟨?_, ?_, ?_, ?_, h5, ?_, h7⟩
    · simp [hcc]
    · simp [hnu]
    · simp
    · simp only
      rw [h4, hnu, hnt]
      simp
    · simpa using h6

theorem raceInv_reach {u maxChoice rejectMsg : String} {s : RaceState}
    (h : RaceReach u maxChoice rejectMsg s) : raceInv u maxChoice rejectMsg s := by
  induction h with
  | init => exact raceInv_init u maxChoice rejectMsg
  | step _ hstep ih => exact raceInv_step ih hstep

/-! ## Helper lemmas for the claim theorems -/

theorem find?_eq_of_perm_countP_le_one {α : Type} (p : α → Bool) :
    ∀ {l₁ l₂ : List α}, l₁.Perm l₂ → l₁.countP p ≤ 1 → l₁.find? p = l₂.find? p := by
  intro l₁ l₂ hperm
  induction hperm with
  | nil => intro _; rfl
  | cons x h ih =>
    intro hc
    cases hx : p x
    · rw [List.find?_cons_of_neg _ (by simp [hx]), List.find?_cons_of_neg _ (by simp [hx])]
      apply ih
      rw [List.countP_cons] at hc
      omega
    · rw [List.find?_cons_of_pos _ hx, List.find?_cons_of_pos _ hx]
  | swap x y l =>
    intro hc
    have e : ∀ (a : α) (t : List α),
        List.find? p (a :: t) = if p a then some a else List.find? p t := by
      intro a t
      cases ha : p a
      · rw [List.find?_cons_of_neg _ (by simp [ha])]
        simp [ha]
      · rw [List.find?_cons_of_pos _ ha]
        simp
    simp only [e]
    cases hx : p x <;> cases hy : p y
    · simp [hx, hy]
    · simp [hx, hy]
    · simp [hx, hy]
    · exfalso
      rw [List.countP_cons, List.countP_cons, hx, hy] at hc
      simp at hc
  | trans h12 h23 ih12 ih23 =>
    intro hc
    rw [ih12 hc, ih23 (by rw [← h12.countP_eq p]; exact hc)]

theorem alookup_isSome_iff {α : Type} (l : List (String × α)) (k : String) :
    (alookup l k).isSome = true ↔ ∃ v, (k, v) ∈ l := by
  induction l with
  | nil => simp [alookup]
  | cons p rest ih =>
    obtain ⟨k', v'⟩ := p
    by_cases h : k' = k
    · subst h
      simp [alookup]
    · simp only [alookup, if_neg h, ih, List.mem_cons]
      constructor
      · rintro ⟨v, hv⟩
        exact ⟨v, Or.inr hv⟩
      · rintro ⟨v, hv | hv⟩
        · exact absurd (Prod.mk.injEq .. ▸ hv).1.symm h
        · exact ⟨v, hv⟩

theorem alookup_isSome_of_perm {α : Type} {l₁ l₂ : List (String × α)}
    (hperm : l₁.Perm l₂) (k : String) :
    (alookup l₁ k).isSome = (alookup l₂ k).isSome := by
  have h := alookup_isSome_iff l₁ k
  have h' := alookup_isSome_iff l₂ k
  cases hb : (alookup l₁ k).isSome <;> cases hb' : (alookup l₂ k).isSome
  · rfl
  · exfalso
    obtain ⟨v, hv⟩ := h'.mp hb'
    have : (alookup l₁ k).isSome = true := h.mpr ⟨v, hperm.mem_iff.mpr hv⟩
    rw [hb] at this
    exact Bool.false_ne_true this
  · exfalso
    obtain ⟨v, hv⟩ := h.mp hb
    have : (alookup l₂ k).isSome = true := h'.mpr ⟨v, hperm.mem_iff.mp hv⟩
    rw [hb'] at this
    exact Bool.false_ne_true this
  · rfl

theorem extractButtonsGo_eq_filterMap (choices : List (String × String)) :
    ∀ ns : List Nat,
      extractButtonsGo choices ns
        = ns.filterMap (fun i => (alookup choices (toString i)).map stripChoicePrefix) := by
  intro ns
  induction ns with
  | nil => rfl
  | cons n rest ih =>
    cases hg : alookup choices (toString n) <;>
      simp [extractButtonsGo, List.filterMap_cons, hg, ih]

/-! ## Claim theorems -/

/-- **C7** (corrected: counterexample): `GetBestChoice` is *not* invariant
under the iteration order of the map: on the two iteration sequences of the map
`{1: "1. Yes", 2: "2. Yes, proceed"}` — both of whose values match the
affirmative pattern — the first range-loop hit differs, giving `"1"` in one
order and `"2"` in the other. -/
theorem getBestChoice_order_dependent :
    [("1", "1. Yes"), ("2", "2. Yes, proceed")].Perm
      [("2", "2. Yes, proceed"), ("1", "1. Yes")] ∧
    getBestChoice [("1", "1. Yes"), ("2", "2. Yes, proceed")] = "1" ∧
    getBestChoice [("2", "2. Yes, proceed"), ("1", "1. Yes")] = "2" := by
  refine ⟨List.Perm.swap .. , ?_, ?_⟩ <;> rfl

/-- **C7** (amended): `GetBestChoice` is deterministic in the map contents
alone *provided* at most one choice matches the affirmative pattern and at
most one contains "Add a new rule": then any two iteration sequences with
the same key-value contents give the same index, and the fallback scan of
indices 1..10 ascending is order-independent unconditionally. -/
theorem getBestChoice_perm_invariant (l₁ l₂ : List (String × String))
    (hperm : l₁.Perm l₂)
    (hyes : l₁.countP (fun p => choiceYesMatch p.2) ≤ 1)
    (hrule : l₁.countP (fun p => containsSubS p.2 "Add a new rule") ≤ 1) :
    getBestChoice l₁ = getBestChoice l₂ := by
  have h1 := find?_eq_of_perm_countP_le_one (fun p => choiceYesMatch p.2) hperm hyes
  have h2 := find?_eq_of_perm_countP_le_one
    (fun p => containsSubS p.2 "Add a new rule") hperm hrule
  have h3 : (fun n : Nat => (alookup l₁ (toString n)).isSome)
      = (fun n : Nat => (alookup l₂ (toString n)).isSome) :=
    funext fun n => alookup_isSome_of_perm hperm (toString n)
  simp only [getBestChoice, h1, h2, h3]

/-- **C7** witness for the amended theorem: with a single affirmative
choice, both iteration orders of `{1: "1. Allow", 2: "2. Deny"}` select
`"1"`. -/
theorem getBestChoice_perm_invariant_witness :
    getBestChoice [("1", "1. Allow"), ("2", "2. Deny")]
      = getBestChoice [("2", "2. Deny"), ("1", "1. Allow")] ∧
    getBestChoice [("1", "1. Allow"), ("2", "2. Deny")] = "1" := by
  constructor
  · exact getBestChoice_perm_invariant _ _ (List.Perm.swap ..) (by decide) (by decide)
  · rfl

/-- **C8**: auto-reject target selection (`findMaxRejectChoice`) prefers
index 3 when present, else 2, defaulting to 2 even when absent; in
particular on the four shapes `{1,2,3}`, `{1,2}`, `{1}`, `{}`. -/
theorem findMaxRejectChoice_policy :
    (∀ choices : List (String × String),
      findMaxRejectChoice choices =
        if (alookup choices "3").isSome then "3" else "2") ∧
    findMaxRejectChoice [("1", "a"), ("2", "b"), ("3", "c")] = "3" ∧
    findMaxRejectChoice [("1", "a"), ("2", "b")] = "2" ∧
    findMaxRejectChoice [("1", "a")] = "2" ∧
    findMaxRejectChoice [] = "2" := by
  refine ⟨?_, rfl, rfl, rfl, rfl⟩
  intro choices
  unfold findMaxRejectChoice
  split
  · rfl
  · split <;> rfl

/-- **C9**: when the `osascript` call fails, `SimpleOSDialog.Show` resolves
to the 1-based index (as a string) of the last button, for every non-empty
button list — through either dialog flavour. -/
theorem show_os_failure_most_restrictive (msg defBtn : String)
    (buttons : List String) (h : buttons ≠ []) :
    simpleShow none msg buttons defBtn = toString buttons.length := by
  obtain ⟨b, bs, rfl⟩ := List.exists_cons_of_ne_nil h
  simp only [simpleShow, List.isEmpty_cons, Bool.false_eq_true, if_false]
  split <;> rfl

/-- **C9** witness: OS failure with buttons `["Yes", "No"]` returns `"2"`. -/
theorem show_os_failure_witness :
    (["Yes", "No"] : List String) ≠ [] ∧
    simpleShow none "m" ["Yes", "No"] "Yes" = "2" := by
  refine ⟨by decide, ?_⟩
  rw [show_os_failure_most_restrictive "m" "Yes" ["Yes", "No"] (by decide)]
  rfl

/-- **C10**: `extractButtons` walks indices 1 up to the number of collected
choices in ascending order, keeps exactly the labels of the present keys with the
text after the first `". "` (whole label when absent), and therefore
silently omits choices whose index exceeds the map size — e.g. key set
`{"1", "3"}` yields only the first label. -/
theorem extractButtons_characterization :
    (∀ choices : List (String × String),
      extractButtons choices =
        (List.range' 1 choices.length).filterMap
          (fun i => (alookup choices (toString i)).map stripChoicePrefix)) ∧
    extractButtons [("1", "1. Yes"), ("3", "3. No")] = ["Yes"] ∧
    stripChoicePrefix "3. No" = "No" := by
  refine ⟨?_, rfl, rfl⟩
  intro choices
  exact extractButtonsGo_eq_filterMap choices (List.range' 1 choices.length)

/-- **C2**: once `AppState.ShouldProcessPrompt` accepts a prompt text at
time `t` it records the ANSI-stripped text at `t`; any further check of the
same stripped text within 5 seconds returns `false` without mutating the
state (no second decision cycle), and a check more than 5 seconds later —
with the just-shown cooldown flag clear, which no non-test code path ever
sets — returns `true` again. -/
theorem shouldProcessPrompt_dedup_window :
    (∀ (st : PromptStateM) (prompt : String) (now : Int),
      (shouldProcessPromptT st prompt now).1 = true →
      alookup (shouldProcessPromptT st prompt now).2.processed (stripAnsiS prompt)
        = some now) ∧
    (∀ (st : PromptStateM) (prompt : String) (t now : Int),
      alookup st.processed (stripAnsiS prompt) = some t →
      now - t < promptDuplicationMs →
      shouldProcessPromptT st prompt now = (false, st)) ∧
    (∀ (st : PromptStateM) (prompt : String) (t now : Int),
      alookup st.processed (stripAnsiS prompt) = some t →
      now - t > promptDuplicationMs →
      st.justShown = false →
      (shouldProcessPromptT st prompt now).1 = true) := by
  refine ⟨?_, ?_, ?_⟩
  · intro st prompt now h
    simp only [shouldProcessPromptT] at h ⊢
    cases hl : alookup st.processed (stripAnsiS prompt) with
    | none =>
      simp only [hl] at h ⊢
      by_cases hc : st.justShown = true ∧ now - st.cooldown < promptProcessingCooldownMs
      · rw [if_pos hc] at h
        simp at h
      · rw [if_neg hc] at h ⊢
        exact alookup_ainsert_self ..
    | some last =>
      simp only [hl] at h ⊢
      by_cases hlt : now - last < promptDuplicationMs
      · rw [if_pos hlt] at h
        simp at h
      · rw [if_neg hlt] at h ⊢
        by_cases hc : st.justShown = true ∧ now - st.cooldown < promptProcessingCooldownMs
        · rw [if_pos hc] at h
          simp at h
        · rw [if_neg hc] at h ⊢
          exact alookup_ainsert_self ..
  · intro st prompt t now hl hlt
    simp only [shouldProcessPromptT, hl]
    rw [if_pos hlt]
  · intro st prompt t now hl hgt hjs
    simp only [shouldProcessPromptT, hl]
    rw [if_neg (by omega)]
    rw [if_neg (by simp [hjs])]

/-- **C2** witness: a prompt recorded at `t = 1000` ms is suppressed at
`2000` ms (unchanged state) and accepted again at `7000` ms. -/
theorem shouldProcessPrompt_dedup_window_witness :
    (shouldProcessPromptT
        { newPromptState with processed := [("Do you want to proceed?", 1000)] }
        "Do you want to proceed?" 2000)
      = (false, { newPromptState with processed := [("Do you want to proceed?", 1000)] }) ∧
    (shouldProcessPromptT
        { newPromptState with processed := [("Do you want to proceed?", 1000)] }
        "Do you want to proceed?" 7000).1 = true := by
  constructor
  · exact shouldProcessPrompt_dedup_window.2.1 _ "Do you want to proceed?" 1000 2000
      (by decide) (by decide)
  · exact shouldProcessPrompt_dedup_window.2.2 _ "Do you want to proceed?" 1000 7000
      (by decide) (by decide) rfl

theorem dmShouldProcessPrompt_preserves (dm : DedupManager) (p : String) (now : Int) :
    (dmShouldProcessPrompt dm p now).2.cooldownStates = dm.cooldownStates ∧
    (dmShouldProcessPrompt dm p now).2.config = dm.config := by
  simp only [dmShouldProcessPrompt]
  cases hl : alookup dm.processedPrompts (stripAnsiS p) with
  | none => exact ⟨rfl, rfl⟩
  | some e =>
    dsimp only
    by_cases hlt : now - e.processedAt < dm.config.promptDuplicationSeconds * 1000
    · rw [if_pos hlt]
      exact ⟨rfl, rfl⟩
    · rw [if_neg hlt]
      exact ⟨rfl, rfl⟩

/-- **C6**: after `SetCooldown` arms channel `key` at time `t` with
duration `d`, every prompt checked against that channel before `t + d` is
suppressed regardless of its text; once `t + d` has passed, a prompt that
also passes the dedup check is accepted. -/
theorem setCooldown_suppresses_until :
    (∀ (dm : DedupManager) (key prompt : String) (d t now : Int),
      now < t + d →
      (dmShouldProcessWithCooldown (dmSetCooldown dm key d t) prompt key now).1
        = false) ∧
    (∀ (dm : DedupManager) (key prompt : String) (d t now : Int),
      t + d ≤ now →
      (dmShouldProcessPrompt (dmSetCooldown dm key d t) prompt now).1 = true →
      (dmShouldProcessWithCooldown (dmSetCooldown dm key d t) prompt key now).1
        = true) := by
  constructor
  · intro dm key prompt d t now hlt
    simp only [dmShouldProcessWithCooldown]
    cases hb : (dmShouldProcessPrompt (dmSetCooldown dm key d t) prompt now).1 with
    | false => simp
    | true =>
      rw [if_pos rfl]
      have hcs := (dmShouldProcessPrompt_preserves (dmSetCooldown dm key d t) prompt now).1
      rw [hcs]
      have hlook : alookup (dmSetCooldown dm key d t).cooldownStates key
          = some (CooldownStateM.mk t true (t + d)) := alookup_ainsert_self ..
      rw [hlook]
      dsimp only
      rw [if_pos ⟨rfl, hlt⟩]
  · intro dm key prompt d t now hge hok
    simp only [dmShouldProcessWithCooldown]
    rw [if_pos hok]
    have hcs := (dmShouldProcessPrompt_preserves (dmSetCooldown dm key d t) prompt now).1
    rw [hcs]
    have hlook : alookup (dmSetCooldown dm key d t).cooldownStates key
        = some (CooldownStateM.mk t true (t + d)) := alookup_ainsert_self ..
    rw [hlook]
    dsimp only
    rw [if_neg ?hc]
    case hc =>
      rintro ⟨-, hlt2⟩
      omega

/-- **C6** witness: a 3000 ms cooldown armed on `"main_dialog"` at `t = 0`
suppresses a textually fresh prompt at 500 ms and, at 3000 ms, a fresh
prompt that passes the dedup check is accepted. -/
theorem setCooldown_suppresses_until_witness :
    (dmShouldProcessWithCooldown
        (dmSetCooldown (newDedupManager defaultDedupConfig) "main_dialog" 3000 0)
        "Do you want to proceed?" "main_dialog" 500).1 = false ∧
    (dmShouldProcessWithCooldown
        (dmSetCooldown (newDedupManager defaultDedupConfig) "main_dialog" 3000 0)
        "Do you want to proceed?" "main_dialog" 3000).1 = true := by
  constructor
  · exact setCooldown_suppresses_until.1 _ "main_dialog" "Do you want to proceed?"
      3000 0 500 (by decide)
  · exact setCooldown_suppresses_until.2 _ "main_dialog" "Do you want to proceed?"
      3000 0 3000 (by decide) (by decide)

theorem processChoiceMain_no_start (st : PromptStateM) (line clean : String)
    (auto : Bool) (dres : String) :
    HEvent.startCollection ∉ (processChoiceMain st line clean auto dres).2 := by
  simp only [processChoiceMain]
  split
  · split
    · simp
    · split <;> simp
  · simp

/-- **C3**: in the glyph-excluding classifier (`processLine`,
cmd/dcode/main.go) a line that matches the `Do you want to` pattern but
carries the command-executed marker `⏺` never opens a prompt collection,
and outside an active collection it produces no write at all — an echoed
question inside a rejection notice cannot re-open a prompt or emit a
choice digit. -/
theorem marker_line_never_opens_prompt :
    ∀ (h : MainHandlerState) (line : String) (now : Int) (auto : Bool)
      (dres : String),
      permitMatch line = true → containsSubS line "⏺" = true →
      HEvent.startCollection ∉ (processLineMain h line now auto dres).2 ∧
      (h.prompt.started = false → (processLineMain h line now auto dres).2 = []) := by
  intro h line now auto dres hp hm
  simp only [processLineMain, hm, Bool.not_true, Bool.and_false, Bool.false_eq_true,
    if_false]
  constructor
  · split
    · simp
    · split
      · exact processChoiceMain_no_start h.prompt line (stripAnsiS line) auto dres
      · simp
  · intro hstart
    split
    · rfl
    · split
      · next hs => exact absurd hs (by simp [hstart])
      · rfl

/-- **C3** witness: the concrete marker-carrying question line, fed to an
idle handler, opens nothing and writes nothing. -/
theorem marker_line_never_opens_prompt_witness :
    permitMatch "⏺ Do you want to proceed?" = true ∧
    containsSubS "⏺ Do you want to proceed?" "⏺" = true ∧
    (processLineMain (MainHandlerState.mk newPromptState [])
        "⏺ Do you want to proceed?" 0 false "").2 = [] := by
  refine ⟨by decide, by decide, ?_⟩
  exact (marker_line_never_opens_prompt (MainHandlerState.mk newPromptState [])
    "⏺ Do you want to proceed?" 0 false "" (by decide) (by decide)).2 rfl

/-- **C4** (corrected: counterexample): after collecting the P3 lines, the
value stored at key `"1"` is `"1. Yes"` — `AddChoice` reattaches the
`"N. "` prefix to the cleaned text — not the bare `"Yes"` the claim
states. -/
theorem addChoice_stores_prefixed_value :
    alookup p3State.collectedChoices "1" = some "1. Yes" ∧
    ("1. Yes" : String) ≠ "Yes" := by
  exact ⟨rfl, by decide⟩

/-- **C4** (amended): the frozen map holds, at keys 1, 2, 3, the cleaned
choice texts (cursor, border and Unicode-spacing glyphs stripped) with the
`"N. "` prefix reattached: the three P3 labels each prefixed by its index. -/
theorem addChoice_p3_map :
    p3State.collectedChoices =
      [("1", "1. Yes"), ("2", "2. Yes, and don\x27t ask again for X"),
       ("3", "3. No, and tell Claude...")] := by
  rfl

/-- **C5** (corrected: counterexample): a box-closing line arriving with
zero collected choices still dispatches — in auto-approve mode the
fallback best choice `"1"` is written to the input stream of the child. -/
theorem zero_choice_close_still_writes :
    (addChoice { newPromptState with started := true }
        "╰──────────────╯").collectedChoices = [] ∧
    (processChoiceApp { newPromptState with started := true } "╰──────────────╯"
        Mode.autoApprove "" none).2 = ["1"] := by
  exact ⟨rfl, rfl⟩

/-- **C5** (amended): when the box closes with zero collected choices the
decision cycle still runs in every mode: auto-approve writes the fallback
best choice `"1"`; auto-reject and the auto-reject-with-wait timeout path
write the default reject index `"2"`, the rejection message and a carriage
return; only the interactive path via the built-in dialog writes nothing,
because `askWithOptions` returns the empty-buttons sentinel `""`. -/
theorem zero_choice_close_dispatch :
    ∀ (st : PromptStateM) (line : String) (os ro : Option String),
      st.started = true →
      (addChoice st line).collectedChoices = [] →
      containsSubS (stripAnsiS line) "╰" = true →
      (processChoiceApp st line Mode.autoApprove "" none).2 = ["1"] ∧
      (processChoiceApp st line Mode.autoReject "" none).2 =
        ["2", buildAutoRejectMessage (addChoice st line).context, "\r"] ∧
      (processChoiceApp st line Mode.autoRejectWait "" none).2 =
        ["2", buildAutoRejectMessage (addChoice st line).context, "\r"] ∧
      askWithOptionsM (addChoice st line).collectedChoices false os = "" ∧
      (processChoiceApp st line Mode.interactive
          (askWithOptionsM (addChoice st line).collectedChoices false os) ro).2
        = [] := by
  intro st line os ro hst hmap hclose
  simp only [processChoiceApp, hclose, if_true, hmap, handleUserChoiceApp,
    askWithOptionsM, getBestChoice, findMaxRejectChoice]
  refine ⟨rfl, rfl, rfl, rfl, rfl⟩

/-- **C5** witness for the amended theorem, at the concrete zero-choice
box close. -/
theorem zero_choice_close_dispatch_witness :
    (processChoiceApp { newPromptState with started := true } "╰──────────────╯"
        Mode.autoReject "" none).2 =
      ["2", buildAutoRejectMessage [], "\r"] ∧
    (processChoiceApp { newPromptState with started := true } "╰──────────────╯"
        Mode.interactive
        (askWithOptionsM [] false none) none).2 = [] := by
  have h := zero_choice_close_dispatch { newPromptState with started := true }
    "╰──────────────╯" none none rfl rfl (by decide)
  exact ⟨h.2.1, h.2.2.2.2⟩

/-- **C1**: race safety of `sendAutoRejectWithWait`, on its transition
system.  In every reachable state: if the outer `select` committed to the
timeout branch — which is the case when the `N`-second timer elapses while
the dialog callback has not yet returned, since the channel buffer is then
still empty — the input stream of the child received exactly the
most-restrictive choice (`findMaxRejectChoice`), the rejection message and
a carriage return; the user branch never ran and the late dialog response
`u` was discarded without being written (whenever `u` is not literally one
of those three payloads).  Moreover `close(done)` ran at most once (no
panic), the writes are always those of exactly one branch, and a state
with no enabled step has both goroutines terminated (no goroutine leak). -/
theorem autoRejectWithWait_race_safety
    (u : String) (choices : List (String × String)) (context : List String)
    (s : RaceState)
    (hreach : RaceReach u (findMaxRejectChoice choices)
      (buildAutoRejectMessage context) s) :
    (s.tookTimeout = true →
      s.writes = [findMaxRejectChoice choices, buildAutoRejectMessage context, "\r"] ∧
      s.tookUser = false ∧
      (u ∉ [findMaxRejectChoice choices, buildAutoRejectMessage context, "\r"] →
        u ∉ s.writes)) ∧
    s.doneCloseCount ≤ 1 ∧
    (s.writes = [] ∨ s.writes = [u] ∨
      s.writes = [findMaxRejectChoice choices, buildAutoRejectMessage context, "\r"]) ∧
    ((∀ s', ¬ RaceStep u (findMaxRejectChoice choices)
        (buildAutoRejectMessage context) s s') →
      s.outerDone = true ∧ s.innerDone = true) := by
  obtain ⟨h1, h2, h3, h4, h5, h6, h7⟩ := raceInv_reach hreach
  refine ⟨?_, ?_, ?_, ?_⟩
  · intro ht
    have hnu : s.tookUser = false := by
      cases hu : s.tookUser with
      | false => rfl
      | true => exact absurd ⟨hu, ht⟩ h2
    refine ⟨by rw [h4, hnu, ht]; simp, hnu, ?_⟩
    intro hnotin
    rw [h4, hnu, ht]
    simpa using hnotin
  · rw [h1]
    split <;> omega
  · rw [h4]
    cases s.tookUser <;> cases s.tookTimeout <;> simp
  · intro hstuck
    have htf : s.timerFired = true := by
      cases htf : s.timerFired with
      | true => rfl
      | false => exact absurd (RaceStep.timerFire s (by simp [htf])) (hstuck _)
    have hout : s.outerDone = true := by
      cases ho : s.outerDone with
      | true => rfl
      | false => exact absurd (RaceStep.outerTimeout s (by simp [ho]) htf) (hstuck _)
    refine ⟨hout, ?_⟩
    cases hid : s.innerDone with
    | true => rfl
    | false =>
      cases hia : s.innerAtSelect with
      | false =>
        exact absurd (RaceStep.callbackReturn s (by simp [hia]) (by simp [hid]))
          (hstuck _)
      | true =>
        have hbuf : s.chanBuf = none := by
          cases hbuf : s.chanBuf with
          | none => rfl
          | some v =>
            have hd : s.innerDone = true := h7 (by simp [hbuf])
            rw [hid] at hd
            exact absurd hd (by simp)
        exact absurd (RaceStep.innerSend s (by simp [hia]) hbuf) (hstuck _)

/-- **C1** witness: a concrete run in which the 1-second timer beats a
2-second-late dialog response `"1"`: the output holds exactly the
most-restrictive index `"3"` with the rejection sequence, and never the
late `"1"`. -/
theorem autoRejectWithWait_race_safety_witness :
    raceDemoFinal.writes =
      [findMaxRejectChoice raceDemoChoices, buildAutoRejectMessage [], "\r"] ∧
    raceDemoFinal.tookUser = false ∧
    "1" ∉ raceDemoFinal.writes := by
  have hreach : RaceReach "1" (findMaxRejectChoice raceDemoChoices)
      (buildAutoRejectMessage []) raceDemoFinal :=
    RaceReach.step (RaceReach.step (RaceReach.step (RaceReach.step RaceReach.init
      (RaceStep.timerFire _ (by decide)))
      (RaceStep.outerTimeout _ (by decide) (by decide)))
      (RaceStep.callbackReturn _ (by decide) (by decide)))
      (RaceStep.innerDrop _ (by decide) (by decide))
  have h := (autoRejectWithWait_race_safety "1" raceDemoChoices [] raceDemoFinal
    hreach).1 rfl
  exact ⟨h.1, h.2.1, h.2.2 (by decide)⟩

end DialogCode
